import Mathlib

/-!
Shallow embedding of the ironsight software 3D rendering pipeline
(src/math.rs, src/rasterizer.rs, src/renderer.rs, src/geometry.rs,
src/camera.rs, src/scene.rs).

Modelling conventions:
* Rust `f64` scalars are modelled as elements of a `LinearOrderedField`;
  rational-only computations are instantiated at `ℚ` (fully executable),
  computations involving `sqrt`/`tan` are instantiated at `ℝ` with
  `Real.sqrt`/`Real.tan`.  Exact comparisons (`!=`, `<`) of the source map to
  exact comparisons of the field; float rounding is not modelled.
* `usize`/`i32` are modelled as `Nat`/`Int`.  The `as i32` cast of an `f64`
  truncates toward zero, modelled by `f64_to_i32` below (saturation at the
  i32 range limits is not modelled: all inputs considered stay far inside it).
* A Rust panic (out-of-bounds slice index) is modelled by an `Option` result
  being `none`.
* `Vec<T>` buffers are Lean `List`s; `HashMap<K, V>` is an association list
  keyed by `K` (the scene only updates distinct keys, so iteration order is
  irrelevant to the modelled operations).
-/

namespace Ironsight

section LinAlg

variable {α : Type} [LinearOrderedField α]

/-- `Vec2` of src/math.rs. -/
structure Vec2 (α : Type) where
  x : α
  y : α
deriving DecidableEq

/-- `Vec3` of src/math.rs. -/
structure Vec3 (α : Type) where
  x : α
  y : α
  z : α
deriving DecidableEq

/-- `Vec3::zero`. -/
def Vec3.zero : Vec3 α := ⟨0, 0, 0⟩

/-- `impl Add for Vec3`. -/
def Vec3.add (a b : Vec3 α) : Vec3 α := ⟨a.x + b.x, a.y + b.y, a.z + b.z⟩

/-- `impl Sub for Vec3`. -/
def Vec3.sub (a b : Vec3 α) : Vec3 α := ⟨a.x - b.x, a.y - b.y, a.z - b.z⟩

/-- `impl Mul<f64> for Vec3` (scalar multiplication). -/
def Vec3.smul (a : Vec3 α) (s : α) : Vec3 α := ⟨a.x * s, a.y * s, a.z * s⟩

/-- `impl Div<f64> for Vec3` (componentwise division by a scalar). -/
def Vec3.divScalar (a : Vec3 α) (s : α) : Vec3 α := ⟨a.x / s, a.y / s, a.z / s⟩

/-- `Vec3::dot`. -/
def Vec3.dot (a b : Vec3 α) : α := a.x * b.x + a.y * b.y + a.z * b.z

/-- `Vec3::cross`. -/
def Vec3.cross (a b : Vec3 α) : Vec3 α :=
  ⟨a.y * b.z - a.z * b.y, a.z * b.x - a.x * b.z, a.x * b.y - a.y * b.x⟩

/-- `Mat4` of src/math.rs: `data: [[f64; 4]; 4]`, here spelled out as the 16
entries `mIJ = data[I][J]`. -/
structure Mat4 (α : Type) where
  m00 : α
  m01 : α
  m02 : α
  m03 : α
  m10 : α
  m11 : α
  m12 : α
  m13 : α
  m20 : α
  m21 : α
  m22 : α
  m23 : α
  m30 : α
  m31 : α
  m32 : α
  m33 : α
deriving DecidableEq

/-- `Mat4::identity`. -/
def Mat4.identity : Mat4 α :=
  ⟨1, 0, 0, 0,
   0, 1, 0, 0,
   0, 0, 1, 0,
   0, 0, 0, 1⟩

/-- `Mat4::translation` (identity with column 3 set to `(x, y, z)`). -/
def Mat4.translation (x y z : α) : Mat4 α :=
  { Mat4.identity with m03 := x, m13 := y, m23 := z }

/-- `Mat4::scaling` (identity with the diagonal set to `(x, y, z)`). -/
def Mat4.scaling (x y z : α) : Mat4 α :=
  { Mat4.identity with m00 := x, m11 := y, m22 := z }

/-- `Mat4::multiply`: `result[i][j] = Σ_k self[i][k] * other[k][j]`. -/
def Mat4.multiply (a b : Mat4 α) : Mat4 α where
  m00 := a.m00 * b.m00 + a.m01 * b.m10 + a.m02 * b.m20 + a.m03 * b.m30
  m01 := a.m00 * b.m01 + a.m01 * b.m11 + a.m02 * b.m21 + a.m03 * b.m31
  m02 := a.m00 * b.m02 + a.m01 * b.m12 + a.m02 * b.m22 + a.m03 * b.m32
  m03 := a.m00 * b.m03 + a.m01 * b.m13 + a.m02 * b.m23 + a.m03 * b.m33
  m10 := a.m10 * b.m00 + a.m11 * b.m10 + a.m12 * b.m20 + a.m13 * b.m30
  m11 := a.m10 * b.m01 + a.m11 * b.m11 + a.m12 * b.m21 + a.m13 * b.m31
  m12 := a.m10 * b.m02 + a.m11 * b.m12 + a.m12 * b.m22 + a.m13 * b.m32
  m13 := a.m10 * b.m03 + a.m11 * b.m13 + a.m12 * b.m23 + a.m13 * b.m33
  m20 := a.m20 * b.m00 + a.m21 * b.m10 + a.m22 * b.m20 + a.m23 * b.m30
  m21 := a.m20 * b.m01 + a.m21 * b.m11 + a.m22 * b.m21 + a.m23 * b.m31
  m22 := a.m20 * b.m02 + a.m21 * b.m12 + a.m22 * b.m22 + a.m23 * b.m32
  m23 := a.m20 * b.m03 + a.m21 * b.m13 + a.m22 * b.m23 + a.m23 * b.m33
  m30 := a.m30 * b.m00 + a.m31 * b.m10 + a.m32 * b.m20 + a.m33 * b.m30
  m31 := a.m30 * b.m01 + a.m31 * b.m11 + a.m32 * b.m21 + a.m33 * b.m31
  m32 := a.m30 * b.m02 + a.m31 * b.m12 + a.m32 * b.m22 + a.m33 * b.m32
  m33 := a.m30 * b.m03 + a.m31 * b.m13 + a.m32 * b.m23 + a.m33 * b.m33

/-- `Mat4::transform_vec3`: homogeneous transform with implicit `w = 1`,
dividing by the resulting `w` unless it is exactly zero. -/
def Mat4.transform_vec3 (m : Mat4 α) (v : Vec3 α) : Vec3 α :=
  let x := v.x * m.m00 + v.y * m.m01 + v.z * m.m02 + m.m03
  let y := v.x * m.m10 + v.y * m.m11 + v.z * m.m12 + m.m13
  let z := v.x * m.m20 + v.y * m.m21 + v.z * m.m22 + m.m23
  let w := v.x * m.m30 + v.y * m.m31 + v.z * m.m32 + m.m33
  if w ≠ 0 then ⟨x / w, y / w, z / w⟩ else ⟨x, y, z⟩

end LinAlg

/-- `Color` of src/rasterizer.rs (`r`, `g`, `b`, `a` are `u8`). -/
structure Color where
  r : Fin 256
  g : Fin 256
  b : Fin 256
  a : Fin 256
deriving DecidableEq

/-- `Color::white`. -/
def Color.white : Color := ⟨255, 255, 255, 255⟩

/-- `Color::black`. -/
def Color.black : Color := ⟨0, 0, 0, 255⟩

/-- `Color::to_u32`: `((a as u32) << 24) | ((b as u32) << 16) | ((g as u32) << 8) | (r as u32)`.
All four components are below `2^8`, so the `u32` computation never wraps and
is modelled exactly on `Nat`. -/
def Color.to_u32 (c : Color) : Nat :=
  ((c.a.val <<< 24) ||| (c.b.val <<< 16)) ||| (c.g.val <<< 8) ||| c.r.val

section RasterizerSec

variable {α : Type} [LinearOrderedField α] [FloorRing α]

/-- The Rust `as i32` cast of an `f64`: truncation toward zero. -/
def f64_to_i32 (q : α) : Int := if q < 0 then ⌈q⌉ else ⌊q⌋

/-- The inclusive integer range `lo..=hi` iterated by the scan loops. -/
def intRange (lo hi : Int) : List Int :=
  (List.range (hi + 1 - lo).toNat).map fun k => lo + (k : Int)

/-- `Rasterizer` of src/rasterizer.rs.  The color buffer holds packed `u32`
values (as `Nat`), the depth buffer holds `f64` depths. -/
structure Rasterizer (α : Type) where
  width : Nat
  height : Nat
  color_buffer : List Nat
  depth_buffer : List α
deriving DecidableEq

/-- The bounds check of `Rasterizer::set_pixel`:
`x < 0 || x >= width || y < 0 || y >= height` fails. -/
def Rasterizer.inBounds (r : Rasterizer α) (x y : Int) : Prop :=
  0 ≤ x ∧ x < (r.width : Int) ∧ 0 ≤ y ∧ y < (r.height : Int)

instance (r : Rasterizer α) (x y : Int) : Decidable (r.inBounds x y) := by
  unfold Rasterizer.inBounds; infer_instance

/-- `Rasterizer::set_pixel`: no-op outside bounds; inside, write depth and
color only when `z` wins the strict depth test `z < depth_buffer[index]`. -/
def Rasterizer.set_pixel (r : Rasterizer α) (x y : Int) (z : α) (c : Color) :
    Rasterizer α :=
  if ¬ r.inBounds x y then r
  else
    let index := y.toNat * r.width + x.toNat
    if z < r.depth_buffer.getD index 0 then
      { r with depth_buffer := r.depth_buffer.set index z,
               color_buffer := r.color_buffer.set index c.to_u32 }
    else r

/-- The Bresenham stepping loop of `Rasterizer::draw_line`.  The source loops
until `(x, y) = (x1, y1)`; that loop always terminates after at most
`dx - dy` steps, so it is modelled with that much fuel (the fuel never runs
out on the source's inputs). -/
def Rasterizer.bresenhamLoop (c : Color) (x1 y1 dx dy sx sy : Int) :
    Nat → Rasterizer α → Int → Int → Int → Rasterizer α
  | 0, r, _, _, _ => r
  | fuel + 1, r, err, x, y =>
    let r1 :=
      if 0 ≤ x ∧ x < (r.width : Int) ∧ 0 ≤ y ∧ y < (r.height : Int) then
        r.set_pixel x y 0 c
      else r
    if x = x1 ∧ y = y1 then r1
    else
      let e2 := 2 * err
      let err1 := if e2 ≥ dy then err + dy else err
      let x2 := if e2 ≥ dy then x + sx else x
      let err2 := if e2 ≤ dx then err1 + dx else err1
      let y2 := if e2 ≤ dx then y + sy else y
      Rasterizer.bresenhamLoop c x1 y1 dx dy sx sy fuel r1 err2 x2 y2

/-- `Rasterizer::draw_line`: cast endpoints to `i32`, coarse same-side
bounding reject, then integer Bresenham stepping at depth `0.0`. -/
def Rasterizer.draw_line (r : Rasterizer α) (s e : Vec2 α) (c : Color) :
    Rasterizer α :=
  let x0 := f64_to_i32 s.x
  let y0 := f64_to_i32 s.y
  let x1 := f64_to_i32 e.x
  let y1 := f64_to_i32 e.y
  if (x0 < 0 ∧ x1 < 0) ∨ (x0 ≥ (r.width : Int) ∧ x1 ≥ (r.width : Int)) ∨
     (y0 < 0 ∧ y1 < 0) ∨ (y0 ≥ (r.height : Int) ∧ y1 ≥ (r.height : Int)) then r
  else
    let dx := |x1 - x0|
    let dy := -|y1 - y0|
    let sx : Int := if x0 < x1 then 1 else -1
    let sy : Int := if y0 < y1 then 1 else -1
    Rasterizer.bresenhamLoop c x1 y1 dx dy sx sy
      ((dx - dy).toNat + 1) r (dx + dy) x0 y0

/-- The edge-function closure of `Rasterizer::draw_triangle`:
`(c.x - a.x) * (b.y - a.y) - (c.y - a.y) * (b.x - a.x)`. -/
def edgeFn (a b c : Vec2 α) : α :=
  (c.x - a.x) * (b.y - a.y) - (c.y - a.y) * (b.x - a.x)

/-- The per-pixel body of the `draw_triangle` scan loop: evaluate the three
edge functions at the pixel center, and when all are non-negative divide by
the signed area and write the interpolated value through `set_pixel`.
Note the source interpolates `b0 * v0.x + b1 * v1.x + b2 * v2.x` — the
vertices' screen-space X coordinates — as the depth `z`. -/
def Rasterizer.trianglePixel (v0 v1 v2 : Vec2 α) (area : α) (c : Color)
    (r : Rasterizer α) (x y : Int) : Rasterizer α :=
  let p : Vec2 α := ⟨(x : α) + 1 / 2, (y : α) + 1 / 2⟩
  let w0 := edgeFn v1 v2 p
  let w1 := edgeFn v2 v0 p
  let w2 := edgeFn v0 v1 p
  if 0 ≤ w0 ∧ 0 ≤ w1 ∧ 0 ≤ w2 then
    let b0 := w0 / area
    let b1 := w1 / area
    let b2 := w2 / area
    let z := b0 * v0.x + b1 * v1.x + b2 * v2.x
    r.set_pixel x y z c
  else r

/-- `Rasterizer::draw_triangle`: clamped bounding box, epsilon rejection of
degenerate triangles, then the nested scan over pixel centers. -/
def Rasterizer.draw_triangle (r : Rasterizer α) (v0 v1 v2 : Vec2 α)
    (c : Color) : Rasterizer α :=
  let min_x := f64_to_i32 (max (min (min v0.x v1.x) v2.x) 0)
  let min_y := f64_to_i32 (max (min (min v0.y v1.y) v2.y) 0)
  let max_x := f64_to_i32 (min (max (max v0.x v1.x) v2.x) ((r.width : α) - 1))
  let max_y := f64_to_i32 (min (max (max v0.y v1.y) v2.y) ((r.height : α) - 1))
  let area := edgeFn v0 v1 v2
  if |area| < 1 / 100000000 then r
  else
    (intRange min_y max_y).foldl
      (fun racc y =>
        (intRange min_x max_x).foldl
          (fun racc2 x => Rasterizer.trianglePixel v0 v1 v2 area c racc2 x y)
          racc)
      r

/-- `Rasterizer::draw_triangle_wireframe`: three `draw_line` calls along the
triangle's edges. -/
def Rasterizer.draw_triangle_wireframe (r : Rasterizer α) (v0 v1 v2 : Vec2 α)
    (c : Color) : Rasterizer α :=
  ((r.draw_line v0 v1 c).draw_line v1 v2 c).draw_line v2 v0 c

end RasterizerSec

/-! Geometry (src/geometry.rs) and everything downstream of `Vec3::length`
is modelled over `ℝ`, with `f64::sqrt` as `Real.sqrt`. -/

/-- `Vec3::length`: `sqrt(x*x + y*y + z*z)`. -/
noncomputable def Vec3.length (v : Vec3 ℝ) : ℝ :=
  Real.sqrt (v.x * v.x + v.y * v.y + v.z * v.z)

/-- `Vec3::normalize`: divide by the length unless it is exactly zero. -/
noncomputable def Vec3.normalize (v : Vec3 ℝ) : Vec3 ℝ :=
  if v.length ≠ 0 then v.divScalar v.length else v

/-- `Vertex` of src/geometry.rs.  `Vertex::new` normalizes the stored
normal. -/
structure Vertex where
  position : Vec3 ℝ
  normal : Vec3 ℝ
  uv : Vec2 ℝ

/-- `Vertex::new`. -/
noncomputable def Vertex.new (position normal : Vec3 ℝ) (uv : Vec2 ℝ) :
    Vertex :=
  ⟨position, normal.normalize, uv⟩

/-- `Face` of src/geometry.rs: `vertices: [usize; 3]` spelled out as
`v0, v1, v2`, plus the cached face normal. -/
structure Face where
  v0 : Nat
  v1 : Nat
  v2 : Nat
  normal : Vec3 ℝ

/-- `Face::calculate_normal`: `cross(v1 - v0, v2 - v0)` normalized, reading
the three indexed vertex positions.  The source indexes the vertex slice
directly, panicking on an out-of-range index; the panic is modelled by
`none`. -/
noncomputable def Face.calculate_normal (f : Face) (vertices : List Vertex) :
    Option Face :=
  match vertices.get? f.v0, vertices.get? f.v1, vertices.get? f.v2 with
  | some a, some b, some c =>
    let edge1 := b.position.sub a.position
    let edge2 := c.position.sub a.position
    some { f with normal := (edge1.cross edge2).normalize }
  | _, _, _ => none

/-- `Mesh` of src/geometry.rs. -/
structure Mesh where
  vertices : List Vertex
  faces : List Face
  transform : Mat4 ℝ

/-- `Mesh::new`. -/
noncomputable def Mesh.new : Mesh := ⟨[], [], Mat4.identity⟩

/-- `Mesh::add_vertex`: append, returning the new index. -/
def Mesh.add_vertex (m : Mesh) (v : Vertex) : Nat × Mesh :=
  (m.vertices.length, { m with vertices := m.vertices ++ [v] })

/-- `Mesh::add_face`: build the face, immediately compute its normal from the
current vertex buffer, and append it.  An index at or beyond the vertex-buffer
length makes `calculate_normal` panic (modelled by `none`); no error value is
ever produced. -/
noncomputable def Mesh.add_face (m : Mesh) (i0 i1 i2 : Nat) : Option Mesh :=
  ((Face.mk i0 i1 i2 Vec3.zero).calculate_normal m.vertices).map
    fun f => { m with faces := m.faces ++ [f] }

/-- The error message of the validating `add_face` described by the spec. -/
def invalidGeometryMsg : String := "invalid geometry"

/-- Modelled from the spec (§7: missing from the code): the "invalid
geometry" signalling variant of `add_face` that the spec asks implementers
for — validate the three indices against the vertex-buffer length when the
face is added and signal an explicit "invalid geometry" error instead of
reaching an out-of-bounds read. -/
noncomputable def Mesh.add_face_spec (m : Mesh) (i0 i1 i2 : Nat) :
    Except String Mesh :=
  if i0 < m.vertices.length ∧ i1 < m.vertices.length ∧
      i2 < m.vertices.length then
    match m.add_face i0 i1 i2 with
    | some m2 => Except.ok m2
    | none => Except.error invalidGeometryMsg
  else Except.error invalidGeometryMsg

/-- How many of a face's three index slots hold `i` (the accumulation loop of
`generate_vertex_normals` visits every slot). -/
def Face.slotCount (f : Face) (i : Nat) : Nat :=
  (if f.v0 = i then 1 else 0) + (if f.v1 = i then 1 else 0) +
    (if f.v2 = i then 1 else 0)

/-- `normal_counts[i]` after the accumulation loop of
`generate_vertex_normals`. -/
def occCount (faces : List Face) (i : Nat) : Nat :=
  faces.foldl (fun n f => n + f.slotCount i) 0

/-- `vertex_normals[i]` after the accumulation loop of
`generate_vertex_normals` (sum of the face normal once per slot holding
`i`). -/
noncomputable def normalSum (faces : List Face) (i : Nat) : Vec3 ℝ :=
  faces.foldl (fun acc f => acc.add (f.normal.smul (f.slotCount i : ℝ))) Vec3.zero

/-- The write-back loop of `generate_vertex_normals` applied to the vertex at
index `base + position in the list`: a vertex appearing in at least one face
slot gets `(sum / count).normalize`, any other vertex is left untouched. -/
noncomputable def applyVertexNormals (faces : List Face) :
    Nat → List Vertex → List Vertex
  | _, [] => []
  | i, v :: rest =>
    (if 0 < occCount faces i then
      { v with normal := ((normalSum faces i).divScalar (occCount faces i : ℝ)).normalize }
    else v) :: applyVertexNormals faces (i + 1) rest

/-- `Mesh::generate_vertex_normals`: accumulate every face's normal into each
of its three vertex slots, then overwrite each touched vertex's normal with
the normalized average.  The `HashMap` write-back loop updates each distinct
vertex index once, so it is modelled index-by-index (the source would panic
on a face index at or beyond the vertex-buffer length; meshes built through
`add_face` never contain one). -/
noncomputable def Mesh.generate_vertex_normals (m : Mesh) : Mesh :=
  { m with vertices := applyVertexNormals m.faces 0 m.vertices }

/-- `Mat4::rotation_x` (src/math.rs), over `ℝ` since it needs `cos`/`sin`. -/
noncomputable def Mat4.rotation_x (angle : ℝ) : Mat4 ℝ :=
  { Mat4.identity with
    m11 := Real.cos angle, m12 := -Real.sin angle,
    m21 := Real.sin angle, m22 := Real.cos angle }

/-- `Mat4::rotation_y` (src/math.rs). -/
noncomputable def Mat4.rotation_y (angle : ℝ) : Mat4 ℝ :=
  { Mat4.identity with
    m00 := Real.cos angle, m02 := Real.sin angle,
    m20 := -Real.sin angle, m22 := Real.cos angle }

/-- `Mat4::rotation_z` (src/math.rs). -/
noncomputable def Mat4.rotation_z (angle : ℝ) : Mat4 ℝ :=
  { Mat4.identity with
    m00 := Real.cos angle, m01 := -Real.sin angle,
    m10 := Real.sin angle, m11 := Real.cos angle }

/-- `Camera` of src/camera.rs. -/
structure Camera where
  position : Vec3 ℝ
  target : Vec3 ℝ
  up : Vec3 ℝ
  fov : ℝ
  aspect_ratio : ℝ
  near : ℝ
  far : ℝ
  view_matrix : Mat4 ℝ
  projection_matrix : Mat4 ℝ
  movement_speed : ℝ
  rotation_speed : ℝ

/-- `Camera::update_view_matrix`: orthonormal basis from
position/target/up, rotation matrix from the basis rows, composed with the
translation by `-position`. -/
noncomputable def Camera.update_view_matrix (c : Camera) : Camera :=
  let forward := (c.target.sub c.position).normalize
  let right := (forward.cross c.up).normalize
  let up := (right.cross forward).normalize
  let rotation :=
    { Mat4.identity with
      m00 := right.x, m01 := right.y, m02 := right.z,
      m10 := up.x, m11 := up.y, m12 := up.z,
      m20 := -forward.x, m21 := -forward.y, m22 := -forward.z }
  let translation := Mat4.translation (-c.position.x) (-c.position.y) (-c.position.z)
  { c with view_matrix := rotation.multiply translation }

/-- `Camera::update_projection_matrix`: perspective projection from fov,
aspect ratio, near and far. -/
noncomputable def Camera.update_projection_matrix (c : Camera) : Camera :=
  let f := 1 / Real.tan (c.fov / 2)
  let range_inv := 1 / (c.near - c.far)
  { c with projection_matrix :=
    ⟨f / c.aspect_ratio, 0, 0, 0,
     0, f, 0, 0,
     0, 0, (c.far + c.near) * range_inv, -1,
     0, 0, 2 * c.far * c.near * range_inv, 0⟩ }

/-- `Camera::update_matrices`: recompute the view matrix, then the
projection matrix. -/
noncomputable def Camera.update_matrices (c : Camera) : Camera :=
  c.update_view_matrix.update_projection_matrix

/-- `Camera::get_view_projection_matrix`. -/
noncomputable def Camera.get_view_projection_matrix (c : Camera) : Mat4 ℝ :=
  c.projection_matrix.multiply c.view_matrix

/-- `Camera::move_forward`: translate position and target together along the
view direction, then `update_matrices`. -/
noncomputable def Camera.move_forward (c : Camera) (amount : ℝ) : Camera :=
  let forward := (c.target.sub c.position).normalize
  Camera.update_matrices
    { c with position := c.position.add (forward.smul (amount * c.movement_speed)),
             target := c.target.add (forward.smul (amount * c.movement_speed)) }

/-- `Camera::move_right`. -/
noncomputable def Camera.move_right (c : Camera) (amount : ℝ) : Camera :=
  let forward := (c.target.sub c.position).normalize
  let right := (forward.cross c.up).normalize
  Camera.update_matrices
    { c with position := c.position.add (right.smul (amount * c.movement_speed)),
             target := c.target.add (right.smul (amount * c.movement_speed)) }

/-- `Camera::move_up`. -/
noncomputable def Camera.move_up (c : Camera) (amount : ℝ) : Camera :=
  let up := c.up.normalize
  Camera.update_matrices
    { c with position := c.position.add (up.smul (amount * c.movement_speed)),
             target := c.target.add (up.smul (amount * c.movement_speed)) }

/-- `Camera::rotate_horizontal`: rotate the view direction about world Y and
retarget, then `update_matrices`. -/
noncomputable def Camera.rotate_horizontal (c : Camera) (angle : ℝ) : Camera :=
  let forward := (c.target.sub c.position).normalize
  let rotation := Mat4.rotation_y (angle * c.rotation_speed)
  let rotated_forward := rotation.transform_vec3 forward
  Camera.update_matrices { c with target := c.position.add rotated_forward }

/-- `Camera::rotate_vertical`. -/
noncomputable def Camera.rotate_vertical (c : Camera) (angle : ℝ) : Camera :=
  let forward := (c.target.sub c.position).normalize
  let rotation := Mat4.rotation_x (angle * c.rotation_speed)
  let rotated_forward := rotation.transform_vec3 forward
  Camera.update_matrices { c with target := c.position.add rotated_forward }

/-- `Camera::set_position`: assigns the field only — it does NOT call
`update_matrices`. -/
def Camera.set_position (c : Camera) (position : Vec3 ℝ) : Camera :=
  { c with position := position }

/-- `Camera::look_at`: assigns the target field only — it does NOT call
`update_matrices`. -/
def Camera.look_at (c : Camera) (target : Vec3 ℝ) : Camera :=
  { c with target := target }

/-- `Camera::update`. -/
noncomputable def Camera.update (c : Camera) : Camera := c.update_matrices

/-- `Camera::rotate_y`: orbit the eye position about the target's Y axis
(mutates only `position.x` and `position.z`, no matrix update). -/
noncomputable def Camera.rotate_y (c : Camera) (angle : ℝ) : Camera :=
  let cos := Real.cos angle
  let sin := Real.sin angle
  let relative_pos := c.position.sub c.target
  { c with position :=
    ⟨c.target.x + (relative_pos.x * cos - relative_pos.z * sin),
     c.position.y,
     c.target.z + (relative_pos.x * sin + relative_pos.z * cos)⟩ }

/-- `Renderer` of src/renderer.rs. -/
structure Renderer where
  rasterizer : Rasterizer ℝ
  width : Nat
  height : Nat
  clear_color : Color
  wireframe_mode : Bool

/-- `Renderer::set_clear_color`. -/
def Renderer.set_clear_color (r : Renderer) (c : Color) : Renderer :=
  { r with clear_color := c }

/-- `Renderer::toggle_wireframe`. -/
def Renderer.toggle_wireframe (r : Renderer) : Renderer :=
  { r with wireframe_mode := !r.wireframe_mode }

/-- `Renderer::to_screen_space` (generic in the scalar field, taking the
renderer's width and height as arguments): collapse `|z| < 0.001` to the
origin, otherwise divide by `z` and map to pixel coordinates. -/
def to_screen_space {α : Type} [LinearOrderedField α] (width height : Nat)
    (v : Vec3 α) : Vec2 α :=
  if |v.z| < 1 / 1000 then ⟨0, 0⟩
  else
    let inv_z := 1 / v.z
    ⟨(v.x * inv_z + 1) * (1 / 2) * (width : α),
     (-v.y * inv_z + 1) * (1 / 2) * (height : α)⟩

/-- The screen-space map as the spec's sentence states it, for comparison
with the source's `to_screen_space`: `x' = (x+1)*0.5*width`,
`y' = (1-y)*0.5*height`. -/
def to_screen_space_claim {α : Type} [LinearOrderedField α]
    (width height : Nat) (v : Vec3 α) : Vec2 α :=
  ⟨(v.x + 1) * (1 / 2) * (width : α), (1 - v.y) * (1 / 2) * (height : α)⟩

/-- `Renderer::render_mesh`: transform every vertex by
`view_projection * world`, project to screen space, then draw every face.
The source draws `draw_triangle_wireframe` with a fixed white color for
every face, regardless of `wireframe_mode` ("Always draw wireframe for
debugging"); `draw_triangle` is never called.  (The source indexes the
screen-vertex buffer with the face indices, panicking on an out-of-range
index; faces built through `add_face` are always in range, and the model
reads a default for an out-of-range index.) -/
noncomputable def Renderer.render_mesh (r : Renderer) (mesh : Mesh)
    (transform : Mat4 ℝ) (camera : Camera) : Renderer :=
  let view_projection := camera.get_view_projection_matrix
  let model_view_projection := view_projection.multiply transform
  let transformed_vertices :=
    mesh.vertices.map fun v => model_view_projection.transform_vec3 v.position
  let screen_vertices :=
    transformed_vertices.map fun v => to_screen_space r.width r.height v
  { r with rasterizer :=
    (mesh.faces.foldl
      (fun ras face =>
        let v0 := screen_vertices.getD face.v0 ⟨0, 0⟩
        let v1 := screen_vertices.getD face.v1 ⟨0, 0⟩
        let v2 := screen_vertices.getD face.v2 ⟨0, 0⟩
        ras.draw_triangle_wireframe v0 v1 v2 (Color.mk 255 255 255 255))
      r.rasterizer) }

/-- `Transform` of src/scene.rs (position/rotation/scale, cached local and
world matrices, dirty flag). -/
structure Transform where
  position : Vec3 ℝ
  rotation : Vec3 ℝ
  scale : Vec3 ℝ
  local_matrix : Mat4 ℝ
  world_matrix : Mat4 ℝ
  dirty : Bool

/-- `Transform::new`. -/
noncomputable def Transform.new : Transform :=
  ⟨Vec3.zero, Vec3.zero, ⟨1, 1, 1⟩, Mat4.identity, Mat4.identity, true⟩

/-- `Transform::set_position` (sets the dirty flag, no recomputation). -/
def Transform.set_position (t : Transform) (position : Vec3 ℝ) : Transform :=
  { t with position := position, dirty := true }

/-- `Transform::set_rotation`. -/
def Transform.set_rotation (t : Transform) (rotation : Vec3 ℝ) : Transform :=
  { t with rotation := rotation, dirty := true }

/-- `Transform::set_scale`. -/
def Transform.set_scale (t : Transform) (scale : Vec3 ℝ) : Transform :=
  { t with scale := scale, dirty := true }

/-- `Transform::update_local_matrix`: recompute `T * Rz * Ry * Rx * S` and
clear the dirty flag, only when dirty. -/
noncomputable def Transform.update_local_matrix (t : Transform) : Transform :=
  if t.dirty then
    { t with
      local_matrix :=
        ((((Mat4.translation t.position.x t.position.y t.position.z).multiply
          (Mat4.rotation_z t.rotation.z)).multiply
          (Mat4.rotation_y t.rotation.y)).multiply
          (Mat4.rotation_x t.rotation.x)).multiply
          (Mat4.scaling t.scale.x t.scale.y t.scale.z),
      dirty := false }
  else t

/-- `SceneNode` of src/scene.rs. -/
structure SceneNode where
  id : Nat
  name : String
  transform : Transform
  mesh : Option Mesh
  parent : Option Nat
  children : List Nat
  visible : Bool

/-- `SceneNode::new`. -/
noncomputable def SceneNode.new (id : Nat) (name : String) : SceneNode :=
  ⟨id, name, Transform.new, none, none, [], true⟩

/-- Association-list model of the scene's `HashMap<NodeId, SceneNode>`:
lookup (`nodes.get`). -/
def lookupNode : List (Nat × SceneNode) → Nat → Option SceneNode
  | [], _ => none
  | p :: rest, k => if p.1 = k then some p.2 else lookupNode rest k

/-- `nodes.get_mut(&k)` followed by a mutation `f`: a no-op when the key is
absent. -/
def modifyNode : List (Nat × SceneNode) → Nat → (SceneNode → SceneNode) →
    List (Nat × SceneNode)
  | [], _, _ => []
  | p :: rest, k, f =>
    if p.1 = k then (p.1, f p.2) :: rest else p :: modifyNode rest k f

/-- `nodes.insert(k, v)` (keys inserted by the scene are always fresh). -/
def insertNode (l : List (Nat × SceneNode)) (k : Nat) (v : SceneNode) :
    List (Nat × SceneNode) :=
  l ++ [(k, v)]

/-- `nodes.remove(&k)`: the removed node (if any) and the remaining table. -/
def removeNode : List (Nat × SceneNode) → Nat →
    Option SceneNode × List (Nat × SceneNode)
  | [], _ => (none, [])
  | p :: rest, k =>
    if p.1 = k then (some p.2, rest)
    else
      let r := removeNode rest k
      (r.1, p :: r.2)

/-- `Scene` of src/scene.rs. -/
structure Scene where
  nodes : List (Nat × SceneNode)
  root_nodes : List Nat
  next_id : Nat

/-- `Scene::new`. -/
def Scene.new : Scene := ⟨[], [], 0⟩

/-- `Scene::create_node`: fresh monotonically increasing id, inserted into
the table and the root set; returns the new id with the new scene. -/
noncomputable def Scene.create_node (s : Scene) (name : String) : Nat × Scene :=
  let id := s.next_id
  (id, { nodes := insertNode s.nodes id (SceneNode.new id name),
         root_nodes := s.root_nodes ++ [id],
         next_id := id + 1 })

/-- `Scene::create_mesh_node`. -/
noncomputable def Scene.create_mesh_node (s : Scene) (name : String) (mesh : Mesh) :
    Nat × Scene :=
  let r := s.create_node name
  (r.1, { r.2 with nodes := modifyNode r.2.nodes r.1 fun n => { n with mesh := some mesh } })

/-- `Scene::set_parent`: detach the child from its previous root/parent
location, then assign the new parent id on the child and append the child to
the new parent's child list.  No validation of `parent_id` and no cycle
check — in particular `child_id = parent_id` is accepted. -/
def Scene.set_parent (s : Scene) (child_id parent_id : Nat) : Scene :=
  let s1 :=
    match lookupNode s.nodes child_id with
    | none => s
    | some node =>
      match node.parent with
      | some old_parent =>
        { s with nodes := (modifyNode s.nodes old_parent
            fun pn => { pn with children := pn.children.filter fun i => i ≠ child_id }) }
      | none =>
        { s with root_nodes := s.root_nodes.filter fun i => i ≠ child_id }
  let s2 := { s1 with nodes := (modifyNode s1.nodes child_id
    fun n => { n with parent := some parent_id }) }
  { s2 with nodes := (modifyNode s2.nodes parent_id
    fun n => { n with children := n.children ++ [child_id] }) }

/-- `Scene::remove_node`: remove the node from the table, detach it from its
parent's child list (or the root set), then recursively remove its
children.  The recursion strictly shrinks the node table, so it is modelled
with the table size as fuel (never exhausted on any scene). -/
def Scene.removeNodeFuel : Nat → Scene → Nat → Scene
  | 0, s, _ => s
  | fuel + 1, s, id =>
    match removeNode s.nodes id with
    | (none, _) => s
    | (some node, rest) =>
      let s1 : Scene :=
        match node.parent with
        | some parent_id =>
          { s with nodes := (modifyNode rest parent_id
              fun pn => { pn with children := pn.children.filter fun c => c ≠ id }) }
        | none =>
          { s with nodes := rest,
                   root_nodes := s.root_nodes.filter fun r => r ≠ id }
      node.children.foldl (fun acc c => Scene.removeNodeFuel fuel acc c) s1

/-- `Scene::remove_node` entry point. -/
def Scene.remove_node (s : Scene) (id : Nat) : Scene :=
  Scene.removeNodeFuel (s.nodes.length + 1) s id

/-- The parent link of node `i` (`None` when `i` is not in the table). -/
def Scene.nodeParent (s : Scene) (i : Nat) : Option (Option Nat) :=
  (lookupNode s.nodes i).map fun n => n.parent

/-- The child list of node `i` (`None` when `i` is not in the table). -/
def Scene.nodeChildren (s : Scene) (i : Nat) : Option (List Nat) :=
  (lookupNode s.nodes i).map fun n => n.children

/-! ### Claim theorems -/

/-- C8: `transform_vec3` forms the homogeneous result with implicit input
`w = 1` and returns the perspective-divided point when `w` is nonzero and
the un-divided `(x, y, z)` when `w` is exactly zero. -/
theorem transform_vec3_divides_unless_w_zero {α : Type} [LinearOrderedField α]
    (m : Mat4 α) (v : Vec3 α) :
    (v.x * m.m30 + v.y * m.m31 + v.z * m.m32 + m.m33 ≠ 0 →
      m.transform_vec3 v =
        ⟨(v.x * m.m00 + v.y * m.m01 + v.z * m.m02 + m.m03) /
            (v.x * m.m30 + v.y * m.m31 + v.z * m.m32 + m.m33),
          (v.x * m.m10 + v.y * m.m11 + v.z * m.m12 + m.m13) /
            (v.x * m.m30 + v.y * m.m31 + v.z * m.m32 + m.m33),
          (v.x * m.m20 + v.y * m.m21 + v.z * m.m22 + m.m23) /
            (v.x * m.m30 + v.y * m.m31 + v.z * m.m32 + m.m33)⟩) ∧
    (v.x * m.m30 + v.y * m.m31 + v.z * m.m32 + m.m33 = 0 →
      m.transform_vec3 v =
        ⟨v.x * m.m00 + v.y * m.m01 + v.z * m.m02 + m.m03,
          v.x * m.m10 + v.y * m.m11 + v.z * m.m12 + m.m13,
          v.x * m.m20 + v.y * m.m21 + v.z * m.m22 + m.m23⟩) := by
  constructor <;> intro h <;> simp [Mat4.transform_vec3, h]

/-- Witness for C8: transforming `(1, 1, 1)` by the translation by
`(1, 2, 3)` (where the resulting `w` is `1 ≠ 0`) yields `(2, 3, 4)`. -/
theorem transform_vec3_divides_unless_w_zero_witness :
    (Mat4.translation (1 : ℚ) 2 3).transform_vec3 ⟨1, 1, 1⟩ = ⟨2, 3, 4⟩ := by
  have h :=
    (transform_vec3_divides_unless_w_zero (Mat4.translation (1 : ℚ) 2 3)
        ⟨1, 1, 1⟩).1 (by norm_num [Mat4.translation, Mat4.identity])
  rw [h]
  norm_num [Mat4.translation, Mat4.identity, Vec3.mk.injEq]

/-- C7: `set_pixel` is a no-op outside `[0, width) × [0, height)`; inside,
depth and color are both written when `z` is strictly below the stored
depth, and nothing changes otherwise (in particular a tied `z` does not
overwrite). -/
theorem set_pixel_depth_test {α : Type} [LinearOrderedField α]
    (r : Rasterizer α) (x y : Int) (z : α) (c : Color) :
    (¬ r.inBounds x y → r.set_pixel x y z c = r) ∧
    (r.inBounds x y →
      (z < r.depth_buffer.getD (y.toNat * r.width + x.toNat) 0 →
        r.set_pixel x y z c =
          { r with
            depth_buffer := r.depth_buffer.set (y.toNat * r.width + x.toNat) z,
            color_buffer :=
              r.color_buffer.set (y.toNat * r.width + x.toNat) c.to_u32 }) ∧
      (¬ z < r.depth_buffer.getD (y.toNat * r.width + x.toNat) 0 →
        r.set_pixel x y z c = r)) := by
  unfold Rasterizer.set_pixel
  refine ⟨fun h => by rw [if_pos h], fun h => ⟨fun hz => ?_, fun hz => ?_⟩⟩ <;>
      rw [if_neg (not_not_intro h)] <;>
      show (if z < r.depth_buffer.getD (y.toNat * r.width + x.toNat) 0
        then _ else _) = _
  · rw [if_pos hz]
  · rw [if_neg hz]

/-- Witness for C7, on a 1×1 rasterizer whose pixel is stored at depth 5: a
write at depth 2 replaces depth and color, and a later write at depth 8 (or
a tied write at depth 5) changes nothing. -/
theorem set_pixel_depth_test_witness :
    (Rasterizer.set_pixel ⟨1, 1, [7], [5]⟩ 0 0 (2 : ℚ) Color.white).depth_buffer = [2] ∧
    Rasterizer.set_pixel ⟨1, 1, [7], [5]⟩ 0 0 (8 : ℚ) Color.white = ⟨1, 1, [7], [5]⟩ ∧
    Rasterizer.set_pixel ⟨1, 1, [7], [5]⟩ 0 0 (5 : ℚ) Color.white = ⟨1, 1, [7], [5]⟩ := by
  have hin : (⟨1, 1, [7], [5]⟩ : Rasterizer ℚ).inBounds 0 0 := by
    refine ⟨le_refl 0, ?_, le_refl 0, ?_⟩ <;> norm_num
  refine ⟨?_, ?_, ?_⟩
  · have h := ((set_pixel_depth_test (⟨1, 1, [7], [5]⟩ : Rasterizer ℚ) 0 0 2
      Color.white).2 hin).1 (by norm_num [List.getD])
    rw [h]
    simp [List.set]
  · exact ((set_pixel_depth_test (⟨1, 1, [7], [5]⟩ : Rasterizer ℚ) 0 0 8
      Color.white).2 hin).2 (by norm_num [List.getD])
  · exact ((set_pixel_depth_test (⟨1, 1, [7], [5]⟩ : Rasterizer ℚ) 0 0 5
      Color.white).2 hin).2 (by norm_num [List.getD])

/-- C5 (the code bug made precise): the pixel output of `render_mesh` is
completely independent of the wireframe mode — toggling the mode changes
nothing in the produced rasterizer state, because `render_mesh` always
draws every face as a wireframe triangle outline and never rasterizes a
filled triangle. -/
theorem render_mesh_ignores_wireframe_mode (r : Renderer) (mesh : Mesh)
    (transform : Mat4 ℝ) (camera : Camera) :
    ((r.toggle_wireframe).render_mesh mesh transform camera).rasterizer =
      (r.render_mesh mesh transform camera).rasterizer := rfl

/-- C6 counterexample: for the already-perspective-divided point
`(1, 0, 2)` on an 800×600 viewport the claimed map gives
`x' = (1+1)*0.5*800 = 800`, but the source divides by `z` a second time and
returns `x' = 600`. -/
theorem to_screen_space_counterexample :
    to_screen_space 800 600 (⟨1, 0, 2⟩ : Vec3 ℚ) ≠
      to_screen_space_claim 800 600 ⟨1, 0, 2⟩ ∧
    (to_screen_space 800 600 (⟨1, 0, 2⟩ : Vec3 ℚ)).x = 600 ∧
    (to_screen_space_claim 800 600 (⟨1, 0, 2⟩ : Vec3 ℚ)).x = 800 := by
  have h1 : (to_screen_space 800 600 (⟨1, 0, 2⟩ : Vec3 ℚ)).x = 600 := by
    norm_num [to_screen_space]
  have h2 : (to_screen_space_claim 800 600 (⟨1, 0, 2⟩ : Vec3 ℚ)).x = 800 := by
    norm_num [to_screen_space_claim]
  refine ⟨fun h => ?_, h1, h2⟩
  rw [h, h2] at h1
  norm_num at h1

/-- C6 (amended): the screen-space map collapses `|z| < 0.001` to the
origin and otherwise performs a further divide by `z`:
`x' = (x/z + 1)*0.5*width`, `y' = (1 - y/z)*0.5*height` (which matches the
claimed formula exactly when `z = 1`). -/
theorem to_screen_space_formula {α : Type} [LinearOrderedField α]
    (width height : Nat) (v : Vec3 α) :
    to_screen_space width height v =
      if |v.z| < 1 / 1000 then ⟨0, 0⟩
      else
        ⟨(v.x / v.z + 1) * (1 / 2) * (width : α),
          (1 - v.y / v.z) * (1 / 2) * (height : α)⟩ := by
  unfold to_screen_space
  split
  · rfl
  · simp only [Vec2.mk.injEq]
    constructor <;> ring

/-- Doubling both sides of a bitwise or distributes, carrying a low bit on
the right operand. -/
theorem two_mul_lor_add (a b c : ℕ) (hc : c < 2) :
    2 * a ||| (2 * b + c) = 2 * (a ||| b) + c := by
  interval_cases c
  · simpa [Nat.bit] using Nat.lor_bit false a false b
  · simpa [Nat.bit] using Nat.lor_bit false a true b

/-- Bitwise or of a shifted value with a value fitting in the shift amount
is addition (the operands occupy disjoint bit ranges). -/
theorem mul_pow_lor_add (x k : ℕ) : ∀ y, y < 2 ^ k → x * 2 ^ k ||| y = x * 2 ^ k + y := by
  induction k generalizing x with
  | zero =>
    intro y hy
    interval_cases y
    simp
  | succ k ih =>
    intro y hy
    have hsplit : y = 2 * (y / 2) + y % 2 := by omega
    have hy2 : y / 2 < 2 ^ k := by
      rw [pow_succ] at hy
      omega
    calc x * 2 ^ (k + 1) ||| y
        = 2 * (x * 2 ^ k) ||| (2 * (y / 2) + y % 2) := by
          rw [← hsplit, pow_succ]; ring_nf
      _ = 2 * (x * 2 ^ k ||| y / 2) + y % 2 :=
          two_mul_lor_add _ _ _ (Nat.mod_lt _ (by norm_num))
      _ = 2 * (x * 2 ^ k + y / 2) + y % 2 := by rw [ih x _ hy2]
      _ = x * 2 ^ (k + 1) + y := by
          have h2 : x * 2 ^ (k + 1) = 2 * (x * 2 ^ k) := by ring
          rw [h2]
          omega

/-- C10: `to_u32` packs the bytes as `(a<<24) | (b<<16) | (g<<8) | r`, so
red sits in the least-significant byte and alpha in the most-significant
byte — ABGR bit order, not RGBA: each byte extracts back out of the packed
`u32` at its stated position, and the packed value fits in 32 bits. -/
theorem to_u32_packs_abgr (c : Color) :
    c.to_u32 = c.a.val * 2 ^ 24 + c.b.val * 2 ^ 16 + c.g.val * 2 ^ 8 + c.r.val ∧
    c.to_u32 % 2 ^ 8 = c.r.val ∧
    c.to_u32 / 2 ^ 8 % 2 ^ 8 = c.g.val ∧
    c.to_u32 / 2 ^ 16 % 2 ^ 8 = c.b.val ∧
    c.to_u32 / 2 ^ 24 = c.a.val ∧
    c.to_u32 < 2 ^ 32 := by
  obtain ⟨⟨r, hr⟩, ⟨g, hg⟩, ⟨b, hb⟩, ⟨a, ha⟩⟩ := c
  have key : (Color.mk ⟨r, hr⟩ ⟨g, hg⟩ ⟨b, hb⟩ ⟨a, ha⟩).to_u32 =
      a * 2 ^ 24 + b * 2 ^ 16 + g * 2 ^ 8 + r := by
    show ((a <<< 24) ||| (b <<< 16)) ||| (g <<< 8) ||| r = _
    rw [Nat.shiftLeft_eq, Nat.shiftLeft_eq, Nat.shiftLeft_eq,
      Nat.lor_assoc, Nat.lor_assoc,
      mul_pow_lor_add g 8 r hr,
      mul_pow_lor_add b 16 (g * 2 ^ 8 + r) (by norm_num at hr hg ⊢; omega),
      mul_pow_lor_add a 24 (b * 2 ^ 16 + (g * 2 ^ 8 + r))
        (by norm_num at hr hg hb ⊢; omega)]
    omega
  rw [key]
  norm_num at hr hg hb ha ⊢
  omega

/-- C1: the per-pixel "interpolated z" of `draw_triangle` is
`b0*v0.x + b1*v1.x + b2*v2.x`, built from the vertices' screen-space X
coordinates — `draw_triangle` receives only 2D points and has no vertex
depths `d0, d1, d2` at all.  Since the three edge-function weights always
recombine the sample point, the value passed to `set_pixel` as the depth is
just the pixel center's own x-coordinate: the first conjunct is the
edge-function identity `w0*v0.x + w1*v1.x + w2*v2.x = area * p.x` (so after
division by the area, `z = p.x`), and the second conjunct runs
`draw_triangle` on a 1×1 buffer whose single pixel center is
`(0.5, 0.5)`: the written depth is `0.5`, the pixel's x-coordinate. -/
theorem draw_triangle_writes_pixel_x_as_depth :
    (∀ v0 v1 v2 p : Vec2 ℚ,
      edgeFn v1 v2 p * v0.x + edgeFn v2 v0 p * v1.x + edgeFn v0 v1 p * v2.x =
        edgeFn v0 v1 v2 * p.x) ∧
    (Rasterizer.draw_triangle (⟨1, 1, [0], [100]⟩ : Rasterizer ℚ) ⟨0, 0⟩
        ⟨0, 4⟩ ⟨4, 0⟩ Color.white).depth_buffer = [1 / 2] := by
  constructor
  · intro v0 v1 v2 p
    unfold edgeFn
    ring
  · simp only [Rasterizer.draw_triangle]
    norm_num [f64_to_i32, min_def, max_def, abs_of_nonneg]
    rw [(by decide : intRange (0 : ℤ) 0 = [0])]
    simp only [List.foldl_cons, List.foldl_nil]
    norm_num [Rasterizer.trianglePixel, Rasterizer.set_pixel,
      Rasterizer.inBounds, edgeFn, List.getD, List.set]

/-- Looking a key up after a keyed modification: the modified entry at the
modified key, the old table everywhere else. -/
theorem lookupNode_modifyNode (l : List (Nat × SceneNode)) (k j : Nat)
    (f : SceneNode → SceneNode) :
    lookupNode (modifyNode l k f) j =
      if j = k then (lookupNode l j).map f else lookupNode l j := by
  induction l with
  | nil => simp [lookupNode, modifyNode]
  | cons p rest ih =>
    obtain ⟨pk, pn⟩ := p
    by_cases hpk : pk = k
    · subst hpk
      by_cases hjk : j = pk
      · subst hjk
        simp [modifyNode, lookupNode]
      · simp [modifyNode, lookupNode, hjk, Ne.symm hjk]
    · by_cases hpj : pk = j
      · subst hpj
        simp [modifyNode, lookupNode, hpk]
      · simp [modifyNode, lookupNode, hpk, hpj, ih]

/-- C3 (amended): `set_parent(n, n)` on any existing node `n` makes `n` its
own parent and appends `n` to its own child list — a one-step cycle in the
parent/child graph, so the mutators can introduce cycles. -/
theorem set_parent_self_makes_cycle (s : Scene) (n : Nat)
    (h : (lookupNode s.nodes n).isSome = true) :
    (s.set_parent n n).nodeParent n = some (some n) ∧
      n ∈ ((s.set_parent n n).nodeChildren n).getD [] := by
  obtain ⟨node, hnode⟩ : ∃ nd, lookupNode s.nodes n = some nd := by
    cases hl : lookupNode s.nodes n
    · rw [hl] at h
      simp at h
    · exact ⟨_, rfl⟩
  unfold Scene.set_parent
  rw [hnode]
  cases hp : node.parent with
  | some old =>
    by_cases ho : n = old
    · subst ho
      simp [Scene.nodeParent, Scene.nodeChildren, lookupNode_modifyNode,
        hnode, hp]
    · simp [Scene.nodeParent, Scene.nodeChildren, lookupNode_modifyNode,
        hnode, hp, ho]
  | none =>
    simp [Scene.nodeParent, Scene.nodeChildren, lookupNode_modifyNode,
      hnode, hp]

/-- The node name used by the concrete scene-graph examples. -/
def demoName : String := "node"

/-- The scene obtained from an empty scene by `create_node` (which returns
id 0) followed by `set_parent(0, 0)`. -/
noncomputable def sceneSelfParent : Scene :=
  ((Scene.new.create_node demoName).2).set_parent 0 0

/-- C3 counterexample: after `create_node` (id 0) and `set_parent(0, 0)`,
node 0 is its own parent and its own child (and has also left the root
set), refuting the claim that no mutator sequence can make a node reachable
from itself. -/
theorem set_parent_self_cycle_counterexample :
    sceneSelfParent.nodeParent 0 = some (some 0) ∧
    sceneSelfParent.nodeChildren 0 = some [0] ∧
    sceneSelfParent.root_nodes = [] := by
  refine ⟨rfl, rfl, rfl⟩

/-- The two-node scene used as the witness input for C3. -/
noncomputable def sceneTwoNodes : Scene :=
  (((Scene.new.create_node demoName).2).create_node demoName).2

/-- Witness for C3 (amended): in a two-node scene, `set_parent(1, 1)` makes
node 1 its own parent and its own child. -/
theorem set_parent_self_makes_cycle_witness :
    (sceneTwoNodes.set_parent 1 1).nodeParent 1 = some (some 1) ∧
      1 ∈ ((sceneTwoNodes.set_parent 1 1).nodeChildren 1).getD [] :=
  set_parent_self_makes_cycle sceneTwoNodes 1 rfl

/-- The one-vertex mesh used as the failing input for C4. -/
noncomputable def meshOneVertex : Mesh :=
  { vertices := [Vertex.new ⟨0, 0, 0⟩ ⟨0, 1, 0⟩ ⟨0, 0⟩],
    faces := [], transform := Mat4.identity }

/-- C4: `add_face([0, 1, 2])` on a mesh with one vertex reaches the
out-of-range vertex index inside `calculate_normal` and panics (modelled by
`none`) — the code never returns an explicit "invalid geometry" error
value, unlike the validating variant the spec asks for, which signals the
error. -/
theorem add_face_panics_without_error_value :
    meshOneVertex.add_face 0 1 2 = none ∧
    meshOneVertex.add_face_spec 0 1 2 = Except.error invalidGeometryMsg := by
  exact ⟨rfl, rfl⟩

/-- The cached camera matrices agree with the matrices recomputed from the
camera's current position, target, up, fov, aspect ratio, near and far. -/
def Camera.freshCache (c : Camera) : Prop :=
  c.view_matrix = c.update_view_matrix.view_matrix ∧
  c.projection_matrix = c.update_projection_matrix.projection_matrix

/-- Any `update_matrices` output has a fresh cache. -/
theorem update_matrices_freshCache (c : Camera) : c.update_matrices.freshCache :=
  ⟨rfl, rfl⟩

/-- C2 (amended): every mutator that ends in `update_matrices` — the move
and rotate operations — leaves the cached view and projection matrices
equal to the ones recomputed from the current camera state; `set_position`
and `look_at` do not (see the counterexample). -/
theorem camera_movement_refreshes_cache (c : Camera) (amount angle : ℝ) :
    (c.move_forward amount).freshCache ∧ (c.move_right amount).freshCache ∧
    (c.move_up amount).freshCache ∧ (c.rotate_horizontal angle).freshCache ∧
    (c.rotate_vertical angle).freshCache :=
  ⟨update_matrices_freshCache _, update_matrices_freshCache _,
    update_matrices_freshCache _, update_matrices_freshCache _,
    update_matrices_freshCache _⟩

/-- Witness for C2 (amended): the five movement operations on the concrete
camera `camBase` (defined below) leave a fresh cache. -/
theorem camera_movement_refreshes_cache_witness :
    (Camera.move_forward
      { position := ⟨0, 0, -5⟩, target := ⟨0, 0, 0⟩, up := ⟨0, 1, 0⟩,
        fov := 1, aspect_ratio := 4 / 3, near := 1 / 10, far := 100,
        view_matrix := Mat4.identity, projection_matrix := Mat4.identity,
        movement_speed := 5, rotation_speed := 2 } 1).freshCache :=
  (camera_movement_refreshes_cache _ 1 0).1

/-- The concrete camera used by the C2 counterexample: a fully recomputed
(`update_matrices`) camera at position `(0, 0, -5)` looking at the origin. -/
noncomputable def cam0 : Camera :=
  Camera.update_matrices
    { position := ⟨0, 0, -5⟩, target := ⟨0, 0, 0⟩, up := ⟨0, 1, 0⟩,
      fov := 1, aspect_ratio := 4 / 3, near := 1 / 10, far := 100,
      view_matrix := Mat4.identity, projection_matrix := Mat4.identity,
      movement_speed := 5, rotation_speed := 2 }

/-- C2 counterexample: after `set_position` moves `cam0` from `(0, 0, -5)`
to `(0, 0, -7)`, the cached view matrix still has entry `[2][3] = -5` while
the view matrix recomputed from the current state has `[2][3] = -7` — the
cache is stale, refuting the claim for the `set_position` mutator. -/
theorem set_position_leaves_stale_cache :
    ¬((cam0.set_position ⟨0, 0, -7⟩).view_matrix =
        (cam0.set_position ⟨0, 0, -7⟩).update_view_matrix.view_matrix ∧
      (cam0.set_position ⟨0, 0, -7⟩).projection_matrix =
        (cam0.set_position ⟨0, 0, -7⟩).update_projection_matrix.projection_matrix) := by
  have hsqrt25 : Real.sqrt 25 = 5 := by
    rw [show (25 : ℝ) = 5 ^ 2 by norm_num]
    exact Real.sqrt_sq (by norm_num)
  have hsqrt49 : Real.sqrt 49 = 7 := by
    rw [show (49 : ℝ) = 7 ^ 2 by norm_num]
    exact Real.sqrt_sq (by norm_num)
  intro hfresh
  have h := congrArg Mat4.m23 hfresh.1
  norm_num [cam0, Camera.update_matrices, Camera.update_view_matrix,
    Camera.update_projection_matrix, Camera.set_position, Vec3.sub,
    Vec3.normalize, Vec3.length, Vec3.divScalar, Vec3.cross, Mat4.multiply,
    Mat4.translation, Mat4.identity, hsqrt25, hsqrt49, Real.sqrt_one] at h

/-- Normalizing a nonzero vector produces a unit-length vector. -/
theorem normalize_length_one (v : Vec3 ℝ) (hv : v ≠ Vec3.zero) :
    v.normalize.length = 1 := by
  obtain ⟨x, y, z⟩ := v
  have hs : 0 < x * x + y * y + z * z := by
    rcases lt_or_eq_of_le
        (add_nonneg (add_nonneg (mul_self_nonneg x) (mul_self_nonneg y))
          (mul_self_nonneg z)) with h | h
    · exact h
    · exfalso
      apply hv
      have hx : x = 0 := by nlinarith [mul_self_nonneg x, mul_self_nonneg y, mul_self_nonneg z]
      have hy : y = 0 := by nlinarith [mul_self_nonneg x, mul_self_nonneg y, mul_self_nonneg z]
      have hz : z = 0 := by nlinarith [mul_self_nonneg x, mul_self_nonneg y, mul_self_nonneg z]
      simp [Vec3.zero, hx, hy, hz]
  have hlpos : 0 < Real.sqrt (x * x + y * y + z * z) := Real.sqrt_pos.mpr hs
  have hll : Real.sqrt (x * x + y * y + z * z) * Real.sqrt (x * x + y * y + z * z) =
      x * x + y * y + z * z := Real.mul_self_sqrt (le_of_lt hs)
  unfold Vec3.normalize Vec3.length Vec3.divScalar
  rw [if_pos (by exact ne_of_gt hlpos)]
  have key : x / Real.sqrt (x * x + y * y + z * z) * (x / Real.sqrt (x * x + y * y + z * z)) +
      y / Real.sqrt (x * x + y * y + z * z) * (y / Real.sqrt (x * x + y * y + z * z)) +
      z / Real.sqrt (x * x + y * y + z * z) * (z / Real.sqrt (x * x + y * y + z * z)) = 1 := by
    field_simp
  show Real.sqrt _ = 1
  rw [key, Real.sqrt_one]

/-- Indexing the write-back loop of `generate_vertex_normals`: position `i`
of the list processed with base index `j` is the vertex at position `i`,
with its normal replaced when vertex index `j + i` occurs in a face. -/
theorem applyVertexNormals_getD (faces : List Face) :
    ∀ (l : List Vertex) (j i : Nat) (d : Vertex), i < l.length →
      (applyVertexNormals faces j l).getD i d =
        (if 0 < occCount faces (j + i) then
          { l.getD i d with
            normal := ((normalSum faces (j + i)).divScalar
              (occCount faces (j + i) : ℝ)).normalize }
        else l.getD i d) := by
  intro l
  induction l with
  | nil =>
    intro j i d h
    simp at h
  | cons v rest ih =>
    intro j i d h
    cases i with
    | zero => simp [applyVertexNormals, List.getD]
    | succ i =>
      have hji : j + 1 + i = j + (i + 1) := by omega
      simp only [applyVertexNormals, List.getD_cons_succ]
      rw [ih (j + 1) i d (by simpa using h), hji]

/-- C9 (amended): after `generate_vertex_normals`, the normal of every
vertex that occurs in at least one face slot and whose accumulated averaged
face normal is nonzero has unit length.  (A vertex in no face keeps its old
normal, and a cancelling accumulation normalizes the zero vector to the
zero vector — see the counterexample.) -/
theorem generate_vertex_normals_unit (m : Mesh) (i : Nat) (d : Vertex)
    (hi : i < m.vertices.length)
    (hocc : 0 < occCount m.faces i)
    (hnz : (normalSum m.faces i).divScalar (occCount m.faces i : ℝ) ≠ Vec3.zero) :
    ((m.generate_vertex_normals).vertices.getD i d).normal.length = 1 := by
  unfold Mesh.generate_vertex_normals
  have h := applyVertexNormals_getD m.faces m.vertices 0 i d hi
  rw [Nat.zero_add] at h
  show (List.getD (applyVertexNormals m.faces 0 m.vertices) i d).normal.length = 1
  rw [h, if_pos hocc]
  exact normalize_length_one _ hnz

/-- Default vertex used when indexing vertex lists in the C9 statements. -/
noncomputable def vertexD : Vertex := Vertex.new ⟨0, 0, 0⟩ ⟨0, 0, 1⟩ ⟨0, 0⟩

/-- Three vertices of a unit right triangle in the XY plane, no faces yet. -/
noncomputable def meshTriBase : Mesh :=
  { vertices := [Vertex.new ⟨0, 0, 0⟩ ⟨0, 0, 1⟩ ⟨0, 0⟩,
      Vertex.new ⟨1, 0, 0⟩ ⟨0, 0, 1⟩ ⟨0, 0⟩,
      Vertex.new ⟨0, 1, 0⟩ ⟨0, 0, 1⟩ ⟨0, 0⟩],
    faces := [], transform := Mat4.identity }

/-- `meshTriBase` with the single face `[0, 1, 2]` added through
`add_face`. -/
noncomputable def meshOneFace : Mesh := (meshTriBase.add_face 0 1 2).getD meshTriBase

/-- `meshTriBase` with the two opposite-winding faces `[0, 1, 2]` and
`[0, 2, 1]` added through `add_face`: their face normals `(0, 0, 1)` and
`(0, 0, -1)` cancel in the accumulation of `generate_vertex_normals`. -/
noncomputable def meshTwoFaces : Mesh :=
  ((meshTriBase.add_face 0 1 2).bind fun m2 => m2.add_face 0 2 1).getD meshTriBase

/-- Witness for C9 (amended): on the one-face triangle mesh, vertex 0
occurs in a face, its averaged face normal `(0, 0, 1)` is nonzero, and its
generated vertex normal has unit length. -/
theorem generate_vertex_normals_unit_witness :
    ((meshOneFace.generate_vertex_normals).vertices.getD 0 vertexD).normal.length = 1 := by
  have hfaces : meshOneFace.faces = [Face.mk 0 1 2 ⟨0, 0, 1⟩] := by
    simp [meshOneFace, meshTriBase, Mesh.add_face, Face.calculate_normal,
      Vertex.new, Vec3.sub, Vec3.cross, Vec3.normalize, Vec3.length,
      Vec3.divScalar]
  have hverts : meshOneFace.vertices = meshTriBase.vertices := by
    simp [meshOneFace, meshTriBase, Mesh.add_face, Face.calculate_normal]
  refine generate_vertex_normals_unit meshOneFace 0 vertexD ?_ ?_ ?_
  · rw [hverts]
    simp [meshTriBase]
  · rw [hfaces]
    norm_num [occCount, Face.slotCount]
  · rw [hfaces]
    simp [normalSum, occCount, Face.slotCount, Vec3.add, Vec3.smul,
      Vec3.divScalar, Vec3.zero, Vec3.mk.injEq]

/-- C9 counterexample: on `meshTwoFaces` the two face normals cancel for
vertex 0 (`occ = 2`, accumulated sum `(0, 0, 0)`), so
`generate_vertex_normals` stores `normalize(0) = 0`, whose length is `0`,
not `1` — not every vertex normal is unit length after the pass. -/
theorem generate_vertex_normals_counterexample :
    ((meshTwoFaces.generate_vertex_normals).vertices.getD 0 vertexD).normal.length ≠ 1 := by
  have hfaces : meshTwoFaces.faces =
      [Face.mk 0 1 2 ⟨0, 0, 1⟩, Face.mk 0 2 1 ⟨0, 0, -1⟩] := by
    simp [meshTwoFaces, meshTriBase, Mesh.add_face, Face.calculate_normal,
      Vertex.new, Vec3.sub, Vec3.cross, Vec3.normalize, Vec3.length,
      Vec3.divScalar]
  have hverts : meshTwoFaces.vertices = meshTriBase.vertices := by
    simp [meshTwoFaces, meshTriBase, Mesh.add_face, Face.calculate_normal]
  have h := applyVertexNormals_getD meshTwoFaces.faces meshTwoFaces.vertices
    0 0 vertexD (by rw [hverts]; simp [meshTriBase])
  rw [Nat.zero_add] at h
  show (List.getD (applyVertexNormals meshTwoFaces.faces 0 meshTwoFaces.vertices)
    0 vertexD).normal.length ≠ 1
  rw [h, hfaces]
  norm_num [occCount, Face.slotCount, normalSum, Vec3.add, Vec3.smul,
    Vec3.divScalar, Vec3.zero, Vec3.normalize, Vec3.length, Real.sqrt_zero]

end Ironsight
